import Mathlib

/-!
Shallow embedding of the `wsl-rust` execution bridge
(`crates/wsl-api/src/lib.rs`, `crates/wsl-api/src/interop.rs`, plus the
wire structures of `crates/wsl-com-api-sys/src/interop.rs`), together with
theorems settling the frozen specification claims.

Conventions of the embedding:
  - Machine bytes are `Nat` values below 256; `u32` values are `Nat`
    values below `2 ^ 32`; raw OS handle values (`isize`) are `Int`.
  - The interop socket is modelled as the sequence of results that
    successive underlying `Read::read` calls deliver: each element of
    `BufReader.rest` is `some chunk` for a successful read delivering
    `chunk` (an empty chunk is an end-of-file report, which a closed
    `TcpStream` repeats forever, modelled by the list running out) or
    `none` for a read that fails with an I/O error.
  - `std::io::BufReader` semantics: `fill_buf` returns the internal
    buffer unchanged whenever it is non-empty, and performs exactly one
    underlying read when it is empty (returning an empty buffer at
    end-of-file without an error); `consume n` drops `n` buffered bytes.
  - Functions that the Rust code can leave blocked forever are embedded
    as total functions into an outcome type with an explicit `diverge`
    (or `blocks`) constructor.
-/

/-- One result of an underlying `Read::read` call on the interop socket:
`some bytes` for `Ok` (possibly-empty data), `none` for `Err`. -/
abbrev SockChunk := Option (List Nat)

/-- State of the `BufReader<&TcpStream>` in `Interop::process_messages`:
the buffered-but-unconsumed bytes, and the results that future underlying
reads will deliver (after the list runs out, every read reports
end-of-file, i.e. `Ok(0)`). -/
structure BufReader where
  buf : List Nat
  rest : List SockChunk
deriving DecidableEq, Repr

/-- Outcome of `read_direct::<T>` (interop.rs lines 62-69) for a value of
size `n`: `ok bytes st` when the `while` loop finishes and exactly the
first `n` buffered bytes are consumed; `err` when `fill_buf()?`
propagates an I/O error; `diverge` when the `while` loop never finishes
(at end-of-file `fill_buf` keeps returning an empty buffer without an
error, and with a non-empty buffer shorter than `n` it returns that
buffer unchanged forever). -/
inductive ReadOutcome where
  | ok (bytes : List Nat) (st : BufReader)
  | err
  | diverge
deriving DecidableEq, Repr

/-- `read_direct` from interop.rs lines 62-69: loop `fill_buf` until at
least `n` bytes are buffered, then read them and `consume n`. -/
def read_direct (n : Nat) : List Nat → List SockChunk → ReadOutcome
  | buf, [] =>
    if n ≤ buf.length then .ok (buf.take n) ⟨buf.drop n, []⟩ else .diverge
  | buf, none :: r =>
    if n ≤ buf.length then .ok (buf.take n) ⟨buf.drop n, none :: r⟩
    else if buf.isEmpty then .err else .diverge
  | buf, some c :: r =>
    if n ≤ buf.length then .ok (buf.take n) ⟨buf.drop n, some c :: r⟩
    else if buf.isEmpty then read_direct n c r else .diverge

/-- `Read::read_exact` on the `BufReader`, as used (with its result
discarded) to skip an unrecognized frame's payload in
`Interop::process_messages` (interop.rs line 49).  Returns the reader
state afterwards: exactly `n` bytes are consumed when that many are
available; otherwise everything available up to the end-of-file or error
is consumed and the `UnexpectedEof`/IO error is ignored by the caller. -/
def read_exact : Nat → List Nat → List SockChunk → BufReader
  | n, buf, [] =>
    if n ≤ buf.length then ⟨buf.drop n, []⟩ else ⟨[], []⟩
  | n, buf, none :: r =>
    if n ≤ buf.length then ⟨buf.drop n, none :: r⟩ else ⟨[], r⟩
  | n, buf, some c :: r =>
    if n ≤ buf.length then ⟨buf.drop n, some c :: r⟩
    else read_exact (n - buf.length) c r

/-- Number of data bytes an underlying read result carries. -/
def chunkBytes : SockChunk → Nat
  | none => 0
  | some c => c.length

/-- Total number of data bytes still reachable from a reader state. -/
def totalBytes (st : BufReader) : Nat :=
  st.buf.length + (st.rest.map chunkBytes).sum

theorem read_direct_of_le (n : Nat) (buf : List Nat) (rest : List SockChunk)
    (h : n ≤ buf.length) :
    read_direct n buf rest = .ok (buf.take n) ⟨buf.drop n, rest⟩ := by
  cases rest with
  | nil => simp [read_direct, h]
  | cons c r => cases c <;> simp [read_direct, h]

theorem read_exact_of_le (n : Nat) (buf : List Nat) (rest : List SockChunk)
    (h : n ≤ buf.length) :
    read_exact n buf rest = ⟨buf.drop n, rest⟩ := by
  cases rest with
  | nil => simp [read_exact, h]
  | cons c r => cases c <;> simp [read_exact, h]

theorem read_direct_ok_bytes (n : Nat) (buf : List Nat)
    (rest : List SockChunk) (b : List Nat) (st' : BufReader)
    (h : read_direct n buf rest = .ok b st') :
    totalBytes st' + n = buf.length + (rest.map chunkBytes).sum := by
  induction rest generalizing buf with
  | nil =>
    rw [read_direct] at h
    split at h
    · cases h
      simp only [totalBytes, List.length_drop, List.map_nil, List.sum_nil]
      omega
    · cases h
  | cons c r ih =>
    cases c with
    | none =>
      rw [read_direct] at h
      split at h
      · cases h
        simp only [totalBytes, List.length_drop, List.map_cons, List.sum_cons]
        omega
      · split at h <;> cases h
    | some d =>
      rw [read_direct] at h
      split at h
      · cases h
        simp only [totalBytes, List.length_drop, List.map_cons, List.sum_cons]
        omega
      · split at h
        · have hb : buf = [] := by
            simpa [List.isEmpty_iff] using ‹buf.isEmpty = true›
          subst hb
          have := ih d h
          simp only [List.map_cons, List.sum_cons, chunkBytes]
          simp only [List.length_nil] at *
          omega
        · cases h

theorem read_exact_bytes_le (n : Nat) (buf : List Nat)
    (rest : List SockChunk) :
    totalBytes (read_exact n buf rest) ≤
      buf.length + (rest.map chunkBytes).sum := by
  induction rest generalizing n buf with
  | nil =>
    rw [read_exact]
    split <;> simp [totalBytes]
  | cons c r ih =>
    cases c with
    | none =>
      rw [read_exact]
      split
      · simp only [totalBytes, List.length_drop, List.map_cons,
          List.sum_cons]
        omega
      · simp only [totalBytes, List.map_cons, List.sum_cons, chunkBytes]
        have : (⟨[], r⟩ : BufReader).buf.length = 0 := rfl
        simp only [List.length_nil]
        omega
    | some d =>
      rw [read_exact]
      split
      · simp only [totalBytes, List.length_drop, List.map_cons,
          List.sum_cons]
        omega
      · have := ih (n - buf.length) d
        simp only [List.map_cons, List.sum_cons, chunkBytes] at *
        omega

/-- Little-endian `u32` decoding, as performed by
`std::ptr::read_unaligned::<u32>` on x86 for a field of a `repr(C)`
structure (`MESSAGE_HEADER.MessageType` / `.MessageSize`,
`LX_INIT_PROCESS_EXIT_STATUS.ExitCode`; wsl-com-api-sys/src/interop.rs
lines 4-8 and 35-38).  Reads the first four bytes of the list. -/
def decodeU32 (l : List Nat) : Nat :=
  l.getD 0 0 + 256 * l.getD 1 0 + 65536 * l.getD 2 0 +
    16777216 * l.getD 3 0

/-- Little-endian `u32` encoding: the four bytes whose `decodeU32` is
`v % 2 ^ 32`.  Used to build concrete wire inputs for the reader. -/
def encodeU32 (v : Nat) : List Nat :=
  [v % 256, v / 256 % 256, v / 65536 % 256, v / 16777216 % 256]

theorem length_encodeU32 (v : Nat) : (encodeU32 v).length = 4 := by
  simp [encodeU32]

theorem decodeU32_encodeU32_append (v : Nat) (l : List Nat)
    (h : v < 2 ^ 32) : decodeU32 (encodeU32 v ++ l) = v := by
  simp only [encodeU32, decodeU32, List.cons_append, List.nil_append,
    List.getD_cons_zero, List.getD_cons_succ]
  omega

theorem decodeU32_encodeU32 (v : Nat) (h : v < 2 ^ 32) :
    decodeU32 (encodeU32 v) = v := by
  have := decodeU32_encodeU32_append v [] h
  simpa using this

/-- `size_of::<MESSAGE_HEADER>()`: two `u32` fields in a `repr(C)`
struct (wsl-com-api-sys/src/interop.rs lines 4-8). -/
def sizeof_MESSAGE_HEADER : Nat := 8

/-- `size_of::<LX_INIT_PROCESS_EXIT_STATUS>()`: one `u32` field
(wsl-com-api-sys/src/interop.rs lines 35-38). -/
def sizeof_LX_INIT_PROCESS_EXIT_STATUS : Nat := 4

/-- Modelled from the spec: the "exit status" message-type tag
`LX_INIT_MESSAGE_EXIT_STATUS` is imported from
`wsl_com_api_sys::constants`, a module whose source is not part of this
repository snapshot; the spec (§6) fixes only that it is a 4-byte
unsigned tag distinguishing exit-status frames from all others.  Its
concrete numeric value is externally defined and never semantically
relevant below; it is fixed here as an arbitrary `u32` value. -/
def LX_INIT_MESSAGE_EXIT_STATUS : Nat := 7

/-- `usize` wrap-around modulus for the release-mode semantics of the
subtraction `header.MessageSize as usize - size_of::<MESSAGE_HEADER>()`
(interop.rs lines 46-47); in debug mode the underflowing case panics
instead, but no claim below exercises it. -/
def USIZE_MOD : Nat := 2 ^ 64

/-- Outcome of the frame-reader thread body
`Interop::process_messages` (interop.rs lines 30-54):
  - `sent code st` : an exit-status frame was decoded, `code` was sent
    on the termination channel, the function returned `Ok(())` and the
    thread exited, leaving reader state `st` unconsumed;
  - `errExit` : a read returned an I/O error, the `?` operator made the
    function return `Err`, which `Interop::new` discards (`let _ =`),
    and the thread exited without sending;
  - `diverge` : the thread never terminates (the `read_direct` loop
    spins forever, e.g. at end-of-file). -/
inductive ReaderResult where
  | sent (code : Nat) (st : BufReader)
  | errExit
  | diverge
deriving DecidableEq, Repr

/-- `Interop::process_messages` (interop.rs lines 30-54): read an 8-byte
`MESSAGE_HEADER`; on the exit-status tag read the 4-byte
`LX_INIT_PROCESS_EXIT_STATUS`, send its `ExitCode` and return; on any
other tag skip `MessageSize - 8` bytes when that count is positive and
fits the 1024-byte scratch buffer, then loop. -/
def process_messages_body (st : BufReader)
    (rec : (st2 : BufReader) →
      (measure totalBytes).rel st2 st → ReaderResult) : ReaderResult :=
  match h : read_direct 8 st.buf st.rest with
  | .err => .errExit
  | .diverge => .diverge
  | .ok hdr st' =>
    if decodeU32 hdr = LX_INIT_MESSAGE_EXIT_STATUS then
      match read_direct 4 st'.buf st'.rest with
      | .err => .errExit
      | .diverge => .diverge
      | .ok pay st'' => .sent (decodeU32 pay) st''
    else
      let remaining := (decodeU32 (hdr.drop 4) + USIZE_MOD - 8) % USIZE_MOD
      if 0 < remaining ∧ remaining ≤ 1024 then
        rec (read_exact remaining st'.buf st'.rest) (by
          have h1 := read_direct_ok_bytes 8 st.buf st.rest hdr st' h
          have h2 := read_exact_bytes_le remaining st'.buf st'.rest
          simp only [measure, invImage, InvImage, Nat.lt_wfRel]
          simp only [totalBytes] at *
          omega)
      else
        rec st' (by
          have h1 := read_direct_ok_bytes 8 st.buf st.rest hdr st' h
          simp only [measure, invImage, InvImage, Nat.lt_wfRel]
          simp only [totalBytes] at *
          omega)

def process_messages (st : BufReader) : ReaderResult :=
  WellFounded.fix (measure totalBytes).wf process_messages_body st

theorem process_messages_eq (st : BufReader) :
    process_messages st =
      process_messages_body st (fun st2 _ => process_messages st2) := by
  unfold process_messages
  exact WellFounded.fix_eq _ _ _

theorem process_messages_of_err (st : BufReader)
    (h : read_direct 8 st.buf st.rest = .err) :
    process_messages st = .errExit := by
  rw [process_messages_eq]
  unfold process_messages_body
  split
  · rfl
  · rename_i heq
    rw [h] at heq
    cases heq
  · rename_i hdr st' heq
    rw [h] at heq
    cases heq

theorem process_messages_of_diverge (st : BufReader)
    (h : read_direct 8 st.buf st.rest = .diverge) :
    process_messages st = .diverge := by
  rw [process_messages_eq]
  unfold process_messages_body
  split
  · rename_i heq
    rw [h] at heq
    cases heq
  · rfl
  · rename_i hdr st' heq
    rw [h] at heq
    cases heq

theorem process_messages_of_ok (st : BufReader) (hdr : List Nat)
    (st' : BufReader) (h : read_direct 8 st.buf st.rest = .ok hdr st') :
    process_messages st =
      if decodeU32 hdr = LX_INIT_MESSAGE_EXIT_STATUS then
        match read_direct 4 st'.buf st'.rest with
        | .err => .errExit
        | .diverge => .diverge
        | .ok pay st'' => .sent (decodeU32 pay) st''
      else
        if 0 < (decodeU32 (hdr.drop 4) + USIZE_MOD - 8) % USIZE_MOD ∧
            (decodeU32 (hdr.drop 4) + USIZE_MOD - 8) % USIZE_MOD ≤ 1024 then
          process_messages
            (read_exact ((decodeU32 (hdr.drop 4) + USIZE_MOD - 8) % USIZE_MOD)
              st'.buf st'.rest)
        else
          process_messages st' := by
  rw [process_messages_eq]
  unfold process_messages_body
  split
  · rename_i heq
    rw [h] at heq
    cases heq
  · rename_i heq
    rw [h] at heq
    cases heq
  · rename_i hdr2 st2 heq
    rw [h] at heq
    cases heq
    rfl

/-- Wire bytes of one frame: a `MESSAGE_HEADER` with `MessageType = t`
and `MessageSize = sz`, followed by the payload bytes. -/
def frameBytes (t sz : Nat) (payload : List Nat) : List Nat :=
  encodeU32 t ++ encodeU32 sz ++ payload

theorem length_frameBytes (t sz : Nat) (payload : List Nat) :
    (frameBytes t sz payload).length = 8 + payload.length := by
  simp [frameBytes, length_encodeU32]
  omega

theorem read_direct_header (t sz : Nat) (payload r : List Nat)
    (rest : List SockChunk) :
    read_direct 8 (frameBytes t sz payload ++ r) rest =
      .ok (encodeU32 t ++ encodeU32 sz) ⟨payload ++ r, rest⟩ := by
  have hsplit : frameBytes t sz payload ++ r =
      (encodeU32 t ++ encodeU32 sz) ++ (payload ++ r) := by
    simp [frameBytes]
  have hlen8 : (encodeU32 t ++ encodeU32 sz).length = 8 := by
    simp [length_encodeU32]
  rw [hsplit, read_direct_of_le _ _ _ (by rw [List.length_append]; omega),
    List.take_left' hlen8, List.drop_left' hlen8]

theorem decode_header_type (t sz : Nat) (ht : t < 2 ^ 32) :
    decodeU32 (encodeU32 t ++ encodeU32 sz) = t :=
  decodeU32_encodeU32_append t (encodeU32 sz) ht

theorem decode_header_size (t sz : Nat) (hsz : sz < 2 ^ 32) :
    decodeU32 ((encodeU32 t ++ encodeU32 sz).drop 4) = sz := by
  rw [List.drop_left' (length_encodeU32 t), decodeU32_encodeU32 sz hsz]

/-- Skipping one unrecognized frame whose declared payload size is
positive and fits the 1024-byte scratch buffer consumes exactly that
frame's bytes and continues with the rest of the stream. -/
theorem process_messages_skip (t sz : Nat) (payload r : List Nat)
    (rest : List SockChunk) (ht : t < 2 ^ 32)
    (hne : t ≠ LX_INIT_MESSAGE_EXIT_STATUS) (hsz : sz < 2 ^ 32)
    (hlen : payload.length = sz - 8) (hpos : 8 < sz)
    (hbound : sz - 8 ≤ 1024) :
    process_messages ⟨frameBytes t sz payload ++ r, rest⟩ =
      process_messages ⟨r, rest⟩ := by
  rw [process_messages_of_ok _ _ _ (read_direct_header t sz payload r rest)]
  rw [decode_header_type t sz ht, decode_header_size t sz hsz]
  rw [if_neg hne]
  have hrem : (sz + USIZE_MOD - 8) % USIZE_MOD = sz - 8 := by
    simp only [USIZE_MOD]
    omega
  rw [hrem, if_pos (by omega)]
  rw [read_exact_of_le _ _ _ (by rw [List.length_append]; omega)]
  rw [List.drop_left' hlen]

/-- Reading a frame whose type tag is the exit-status tag decodes the
4-byte exit code, sends it, and stops with the remaining bytes
unconsumed (the declared `MessageSize` of the exit frame is not used). -/
theorem process_messages_exit (sz c : Nat) (r : List Nat)
    (rest : List SockChunk) (hc : c < 2 ^ 32) :
    process_messages ⟨frameBytes LX_INIT_MESSAGE_EXIT_STATUS sz
        (encodeU32 c) ++ r, rest⟩ =
      .sent c ⟨r, rest⟩ := by
  rw [process_messages_of_ok _ _ _
    (read_direct_header LX_INIT_MESSAGE_EXIT_STATUS sz (encodeU32 c) r rest)]
  rw [decode_header_type LX_INIT_MESSAGE_EXIT_STATUS sz (by decide)]
  rw [if_pos rfl]
  rw [read_direct_of_le _ _ _
    (by rw [List.length_append, length_encodeU32]; omega)]
  rw [List.take_left' (length_encodeU32 c), List.drop_left' (length_encodeU32 c)]
  simp [decodeU32_encodeU32 c hc]

/-- Pulling the first successful chunk off the socket: with an empty
buffer, `fill_buf` performs one underlying read and the loop retries. -/
theorem read_direct_pull (n : Nat) (c : List Nat) (r : List SockChunk)
    (hn : 0 < n) :
    read_direct n [] (some c :: r) = read_direct n c r := by
  rw [read_direct]
  simp [hn]
  omega

theorem process_messages_pull (bs : List Nat) (r : List SockChunk) :
    process_messages ⟨[], some bs :: r⟩ = process_messages ⟨bs, r⟩ := by
  have hp : read_direct 8 ([] : List Nat) (some bs :: r) =
      read_direct 8 bs r :=
    read_direct_pull 8 bs r (by omega)
  cases hr : read_direct 8 bs r with
  | err =>
    rw [process_messages_of_err _ (hp.trans hr),
      process_messages_of_err _ hr]
  | diverge =>
    rw [process_messages_of_diverge _ (hp.trans hr),
      process_messages_of_diverge _ hr]
  | ok hdr st' =>
    rw [process_messages_of_ok ⟨[], some bs :: r⟩ hdr st' (hp.trans hr),
      process_messages_of_ok ⟨bs, r⟩ hdr st' hr]

/-- Outcome of the blocking `Receiver::recv()` call inside
`Interop::recv_exit_code`. -/
inductive RecvOutcome where
  | value (code : Nat)
  | closed
  | blocks
deriving DecidableEq, Repr

/-- `Interop::recv_exit_code` (interop.rs lines 56-58), for an `Interop`
whose reader thread (`Interop::new`, lines 17-28) runs over a socket
delivering `st`: `self.term.recv().ok()`.
`value c` models `Some(c)` (the thread sent `c` and exited); `closed`
models `None` (the thread exited without sending, so the `Sender` was
dropped and `recv` returns `Err(RecvError)`; every further call returns
`None` as well); `blocks` models a call that never returns: the reader
thread never exits, so the `Sender` stays alive and nothing is sent. -/
def recv_exit_code (st : BufReader) : RecvOutcome :=
  match process_messages st with
  | .sent c _ => .value c
  | .errExit => .closed
  | .diverge => .blocks

/-- `ExitStatus` values produced by `WslProcess::wait`:
`fromRaw c` is `u32_to_exit_status(c)`, i.e.
`ExitStatusExt::from_raw(c)`; `defaultStatus` is
`ExitStatus::default()`, the default/unknown status from
`unwrap_or_default()`. -/
inductive ExitStatusModel where
  | fromRaw (raw : Nat)
  | defaultStatus
deriving DecidableEq, Repr

/-- `u32_to_exit_status` (lib.rs lines 662-670):
`ExitStatusExt::from_raw(exit_code as _)` — the numeric code is carried
into the platform representation unchanged. -/
def u32_to_exit_status (c : Nat) : ExitStatusModel := .fromRaw c

/-- Whether a call of `WslProcess::wait` returns at all, and with what
status if so. -/
inductive WaitOutcome where
  | returns (status : ExitStatusModel)
  | blocksForever
deriving DecidableEq, Repr

/-- The `WslProcessInner::WSL2` arm of `WslProcess::wait` (lib.rs lines
680-684): `let exit = interop.recv_exit_code();
Ok(exit.map(u32_to_exit_status).unwrap_or_default())`. -/
def wsl2_wait (st : BufReader) : WaitOutcome :=
  match recv_exit_code st with
  | .value c => .returns (u32_to_exit_status c)
  | .closed => .returns .defaultStatus
  | .blocks => .blocksForever

/-- `wait_for_wsl_process` (lib.rs lines 65-88), as a function of the
outcome of the external `DeviceIoControl` wait ioctl (its raw `i32`
`ExitStatus` output on success, or an error): on success the raw value
is cast `as u32` (two's complement, i.e. modulo `2 ^ 32`) and shifted
right by 8 bits. -/
def wait_for_wsl_process (ioctl : Except Unit Int) : Except Unit Nat :=
  match ioctl with
  | .error e => .error e
  | .ok raw => .ok ((raw % (2 ^ 32 : Int)).toNat / 2 ^ 8)

/-- The `WslProcessInner::WSL1` arm of `WslProcess::wait` (lib.rs lines
675-679): `wait_for_wsl_process(*handle, u32::MAX)?` then
`u32_to_exit_status`. -/
def wsl1_wait (ioctl : Except Unit Int) : Except Unit ExitStatusModel :=
  match wait_for_wsl_process ioctl with
  | .error e => .error e
  | .ok code => .ok (u32_to_exit_status code)

/-- One frame at the level of the wire protocol: a type tag and the
payload bytes following the 8-byte header. -/
structure WireFrame where
  mtype : Nat
  payload : List Nat
deriving DecidableEq, Repr

/-- A frame the reader skips structurally: an unrecognized tag, and a
payload whose size keeps `remaining_size` positive and within the
1024-byte scratch buffer. -/
def SkippableFrame (f : WireFrame) : Prop :=
  f.mtype < 2 ^ 32 ∧ f.mtype ≠ LX_INIT_MESSAGE_EXIT_STATUS ∧
    0 < f.payload.length ∧ f.payload.length ≤ 1024

instance : DecidablePred SkippableFrame := fun f => by
  unfold SkippableFrame
  infer_instance

/-- Frame encoding with a consistent header: `MessageSize` is the header
size plus the payload size. -/
def encodeFrame (f : WireFrame) : List Nat :=
  frameBytes f.mtype (8 + f.payload.length) f.payload

theorem process_messages_skip_frame (f : WireFrame) (hf : SkippableFrame f)
    (r : List Nat) (rest : List SockChunk) :
    process_messages ⟨encodeFrame f ++ r, rest⟩ =
      process_messages ⟨r, rest⟩ := by
  obtain ⟨h1, h2, h3, h4⟩ := hf
  exact process_messages_skip f.mtype (8 + f.payload.length) f.payload r
    rest h1 h2 (by omega) (by omega) (by omega) (by omega)

theorem process_messages_skip_all (pre : List WireFrame)
    (hpre : ∀ f ∈ pre, SkippableFrame f) (r : List Nat)
    (rest : List SockChunk) :
    process_messages ⟨(pre.map encodeFrame).flatten ++ r, rest⟩ =
      process_messages ⟨r, rest⟩ := by
  induction pre with
  | nil => simp
  | cons f fs ih =>
    simp only [List.map_cons, List.flatten_cons, List.append_assoc]
    rw [process_messages_skip_frame f (hpre f (by simp)) _ rest]
    exact ih fun g hg => hpre g (by simp [hg])

/-- The two call paths a `Wsl2` method can use for a session operation:
`thread` is `Wsl2::execute_thread` (lib.rs lines 309-322), which boxes
the closure, sends it over the bridge's mpsc channel to the background
`com_thread_worker`, and blocks on a private response channel; `current`
is `Wsl2::execute` (lib.rs lines 325-331), which runs the closure
immediately on the calling thread against the shared session object. -/
inductive ExecPath where
  | thread
  | current
deriving DecidableEq, Repr

/-- The public session operations exposed by `Wsl2`. -/
inductive SessionOp where
  | shutdown
  | getDefaultDistribution
  | launch
  | enumerateDistributions
  | exportDistribution
  | registerDistribution
  | setVersion
deriving DecidableEq, Repr

/-- Which call path each `Wsl2` method uses, read off the method bodies
in lib.rs: `shutdown` calls `execute_thread` (line 335);
`get_default_distribution` calls `execute` (line 343); `launch` calls
`execute` (line 400); `enumerate_distributions` calls `execute`
(line 469); `export_distribution` calls `execute` (line 494);
`register_distribution` calls `execute` (line 527); `set_version` calls
`execute` (line 559). -/
def opExecPath : SessionOp → ExecPath
  | .shutdown => .thread
  | .getDefaultDistribution => .current
  | .launch => .current
  | .enumerateDistributions => .current
  | .exportDistribution => .current
  | .registerDistribution => .current
  | .setVersion => .current

/-- `Wsl2::com_thread_worker`'s steady-state loop (lib.rs lines
248-251): `for request in receiver { request(&session); }` — work items
are taken one at a time, in the order the unbounded mpsc channel
delivered them (the channel is FIFO over arrival of `send` calls), and
each closure runs to completion against the session before the next one
is taken.  Modelled as a fold over the delivered queue: `run` is the
effect of one work item's closure on the session state `σ`, also
producing the response the closure pushes to its private channel
(`execute_thread`, lib.rs lines 309-322). -/
def com_thread_worker {σ α β : Type} (run : σ → α → σ × β) :
    List α → σ → σ × List β
  | [], s => (s, [])
  | item :: queue, s =>
    let step := run s item
    let restRun := com_thread_worker run queue step.1
    (restRun.1, step.2 :: restRun.2)

/-- A mock session state that records the order in which operations
enter the control service. -/
def recording_session : List Nat → Nat → List Nat × Unit :=
  fun s i => (s ++ [i], ())

theorem com_thread_worker_record (items acc : List Nat) :
    (com_thread_worker recording_session items acc).1 = acc ++ items := by
  induction items generalizing acc with
  | nil => simp [com_thread_worker]
  | cons a as ih => simp [com_thread_worker, recording_session, ih]

theorem com_thread_worker_append {σ α β : Type} (run : σ → α → σ × β)
    (xs ys : List α) (s : σ) :
    com_thread_worker run (xs ++ ys) s =
      ((com_thread_worker run ys (com_thread_worker run xs s).1).1,
        (com_thread_worker run xs s).2 ++
          (com_thread_worker run ys (com_thread_worker run xs s).1).2) := by
  induction xs generalizing s with
  | nil => simp [com_thread_worker]
  | cons a as ih => simp [com_thread_worker, ih]

/-- `HANDLE::is_invalid` from the `windows` crate, applied by
`Wsl2::launch` to `result.ProcessHandle` (lib.rs line 425): a raw handle
value is invalid when it is null or `INVALID_HANDLE_VALUE` (-1). -/
def handle_is_invalid (h : Int) : Bool := h == 0 || h == -1

/-- `CreateLxProcessResult` (wsl-com-api-sys/src/lib.rs lines 605-615),
restricted to the raw handle fields `Wsl2::launch` inspects or
transfers. -/
structure CreateLxProcessResult where
  ProcessHandle : Int
  ServerHandle : Int
  StandardIn : Int
  StandardOut : Int
  StandardErr : Int
  CommunicationChannel : Int
  InteropSocket : Int
deriving DecidableEq, Repr

/-- `WslProcessInner` (lib.rs lines 705-709): the completion resolver.
`WSL1 h` is the direct variant wrapping the kernel process handle;
`WSL2 sock chan` is the interop variant — an `Interop` whose reader
thread was spawned against the returned interop socket `sock`, plus the
communication-channel handle `chan` closed on drop. -/
inductive WslProcessInner where
  | WSL1 (processHandle : Int)
  | WSL2 (interopSocket : Int) (communicationChannel : Int)
deriving DecidableEq, Repr

/-- `WslProcess` (lib.rs lines 653-660): the stream endpoints handed to
the caller, the raw pipe-direction handles retained for cleanup, and the
completion resolver. -/
structure WslProcess where
  stdin : Option Int
  stdout : Option Int
  stderr : Option Int
  pipe : Int × Int × Int
  handle : WslProcessInner
deriving DecidableEq, Repr

/-- The response-inspection tail of `Wsl2::launch` (lib.rs lines
424-461), given the caller-side pipe ends allocated in lines 375-377
(`stdin_w`, `stdout_r`, `stderr_r`), the service-side ends packed into
`pipe` (line 379), and the service's `CreateLxProcessResult`: branch on
`result.ProcessHandle.is_invalid()` and construct the corresponding
`WslProcess` variant, transferring the indicated handles. -/
def launch_build (stdin_w stdout_r stderr_r : Int)
    (pipe : Int × Int × Int) (result : CreateLxProcessResult) :
    WslProcess :=
  if handle_is_invalid result.ProcessHandle then
    { stdin := some result.StandardIn
      stdout := some result.StandardOut
      stderr := some result.StandardErr
      pipe := pipe
      handle := .WSL2 result.InteropSocket result.CommunicationChannel }
  else
    { stdin := some stdin_w
      stdout := some stdout_r
      stderr := some stderr_r
      pipe := pipe
      handle := .WSL1 result.ProcessHandle }

/-- Lowercase hexadecimal rendering of Rust's `{:x}` for an `isize`
value, as used on `handle.0` in `validate_file_handle` (lib.rs lines
101 and 124): negative values print as their 64-bit two's complement. -/
def fmt_hex (h : Int) : String :=
  String.mk (Nat.toDigits 16 ((h % (2 ^ 64 : Int)).toNat))

/-- Modelled from the spec: `WSL_E_INVALID_USAGE` is imported from
`wsl_com_api_sys::error`, a module whose source is not part of this
repository snapshot; the spec (§7) says local validation errors reuse
the service error representation, a status code plus a descriptive
message.  The concrete HRESULT value is externally defined and never
relevant to the claims; it is fixed here as an arbitrary distinguished
code. -/
def WSL_E_INVALID_USAGE : Int := -2147219954

/-- The error representation shared by service-call and local validation
errors: a status code plus a human-readable message. -/
structure WslErrorModel where
  code : Int
  message : String
deriving DecidableEq, Repr

/-- `GetFileType` result codes from the `windows` crate
(`FILE_TYPE_UNKNOWN`, `FILE_TYPE_DISK`, `FILE_TYPE_CHAR`,
`FILE_TYPE_PIPE`, `FILE_TYPE_REMOTE`). -/
def FILE_TYPE_UNKNOWN : Nat := 0

def FILE_TYPE_DISK : Nat := 1

def FILE_TYPE_CHAR : Nat := 2

def FILE_TYPE_PIPE : Nat := 3

def FILE_TYPE_REMOTE : Nat := 32768

/-- The `type_to_string` closure in `validate_file_handle` (lib.rs lines
109-117). -/
def type_to_string (t : Nat) : String :=
  if t = FILE_TYPE_DISK then "file"
  else if t = FILE_TYPE_PIPE then "pipe"
  else if t = FILE_TYPE_CHAR then "character device"
  else if t = FILE_TYPE_REMOTE then "remote file"
  else if t = FILE_TYPE_UNKNOWN then "unknown type"
  else "invalid type"

/-- `validate_file_handle` (lib.rs lines 91-134).  `getFileType` models
the OS's `GetFileType` for the current handle table and `lastError` the
`{:?}` rendering of `GetLastError()`; both are environment inputs. -/
def validate_file_handle (getFileType : Int → Nat) (lastError : String)
    (name : String) (handle : Int) (expected : Nat) :
    Except WslErrorModel Unit :=
  let file_type := getFileType handle
  if file_type = FILE_TYPE_UNKNOWN then
    .error ⟨WSL_E_INVALID_USAGE,
      name ++ " (" ++ fmt_hex handle ++ ") is not a valid file handle: "
        ++ lastError⟩
  else if file_type ≠ expected then
    .error ⟨WSL_E_INVALID_USAGE,
      name ++ " (" ++ fmt_hex handle ++ ") must be a "
        ++ type_to_string expected ++ " (got a "
        ++ type_to_string file_type ++ ")"⟩
  else .ok ()

/-- The closure run by `Wsl2::export_distribution` (lib.rs lines
484-511): validate both handles locally, then call
`session.ExportDistribution`.  `service` is the external service call;
the Boolean in the result records whether it was reached. -/
def export_distribution (getFileType : Int → Nat) (lastError : String)
    (service : Int → Int → Except WslErrorModel Unit)
    (file_handle stderr_handle : Int) :
    Except WslErrorModel Unit × Bool :=
  match validate_file_handle getFileType lastError "stderr_handle"
      stderr_handle FILE_TYPE_PIPE with
  | .error e => (.error e, false)
  | .ok _ =>
    match validate_file_handle getFileType lastError "file_handle"
        file_handle FILE_TYPE_DISK with
    | .error e => (.error e, false)
    | .ok _ => (service file_handle stderr_handle, true)

/-- `Version` (lib.rs lines 606-612). -/
inductive Version where
  | Legacy
  | WSL1
  | WSL2
  | Unknown (v : Nat)
deriving DecidableEq, Repr

/-- The wire-to-`Version` decoding in
`From<&LXSS_ENUMERATE_INFO> for Distribution` (lib.rs lines 597-601):
`1 => WSL1, 2 => WSL2, _ => Unknown(v)`. -/
def version_of_wire (v : Nat) : Version :=
  if v = 1 then .WSL1 else if v = 2 then .WSL2 else .Unknown v

/-- `Into<u32> for Version` (lib.rs lines 614-623). -/
def version_into_u32 : Version → Nat
  | .Legacy => 0
  | .WSL1 => 1
  | .WSL2 => 2
  | .Unknown v => v

/-- C10: decoding any `u32` wire value to a `Version` (1 to `WSL1`, 2 to
`WSL2`, anything else to `Unknown(v)`) and converting back with
`Into<u32>` yields the same value — the wire decoding is a right inverse
of the conversion to `u32`.  The reverse round trip is not injective:
`Version::Legacy` converts to 0, which decodes to `Unknown(0)`, not
`Legacy`. -/
theorem c10_version_wire_roundtrip :
    (∀ v : Nat, version_into_u32 (version_of_wire v) = v) ∧
      version_of_wire (version_into_u32 .Legacy) = .Unknown 0 ∧
      Version.Unknown 0 ≠ Version.Legacy := by
  refine ⟨fun v => ?_, by decide, by decide⟩
  by_cases h1 : v = 1
  · simp [version_of_wire, version_into_u32, h1]
  · by_cases h2 : v = 2 <;>
      simp [version_of_wire, version_into_u32, h1, h2]

/-- C3: for every launch response, the completion-resolver variant of
the constructed process handle is fully determined by the validity of
`result.ProcessHandle`: an invalid/null kernel handle yields exactly the
socket-interop variant built from the returned interop socket (and
communication channel), and a valid kernel handle yields exactly the
direct variant wrapping that kernel handle; neither variant is ever
constructed under the other condition. -/
theorem c3_resolver_determined_by_handle_validity
    (stdin_w stdout_r stderr_r : Int) (pipe : Int × Int × Int)
    (result : CreateLxProcessResult) :
    ((launch_build stdin_w stdout_r stderr_r pipe result).handle =
        .WSL2 result.InteropSocket result.CommunicationChannel ↔
      handle_is_invalid result.ProcessHandle = true) ∧
    ((launch_build stdin_w stdout_r stderr_r pipe result).handle =
        .WSL1 result.ProcessHandle ↔
      handle_is_invalid result.ProcessHandle = false) := by
  unfold launch_build
  by_cases h : handle_is_invalid result.ProcessHandle <;> simp [h]

/-- C2 counterexample: the claim that every launch request is submitted
as a work item through the bridge queue and executed on the dedicated
bridge thread is false for this code: `Wsl2::launch` submits its closure
through `Wsl2::execute` (lib.rs line 400), the current-thread path, not
through `Wsl2::execute_thread`. -/
theorem c2_launch_not_on_bridge_thread :
    ¬ opExecPath SessionOp.launch = ExecPath.thread := by decide

/-- C2 (amended): a launch request is executed through `Wsl2::execute`,
immediately on the calling thread against the shared session reference;
it is not queued behind the bridge thread and is not serialized FIFO
with shutdown — of the public session operations, only `shutdown` goes
through the `execute_thread` queue. -/
theorem c2_launch_runs_on_calling_thread :
    opExecPath SessionOp.launch = ExecPath.current ∧
      ∀ op, opExecPath op = ExecPath.thread ↔ op = SessionOp.shutdown := by
  refine ⟨rfl, fun op => ?_⟩
  cases op <;> simp [opExecPath]

/-- C6: work items reaching the bridge's queue are observed by the
session in exactly the order the queue delivered them — running the
worker over any delivered sequence against a mock session that records
entries reproduces that sequence — and execution is serial, never
concurrent: over `queue ++ item`, the worker computes `item`'s effect
and response from the session state left after the whole of `queue` has
finished, so no later item starts before every earlier one completed. -/
theorem c6_execute_thread_fifo_serial :
    (∀ items : List Nat,
      (com_thread_worker recording_session items []).1 = items) ∧
    ∀ (σ β : Type) (run : σ → Nat → σ × β) (queue : List Nat)
      (item : Nat) (s : σ),
      com_thread_worker run (queue ++ [item]) s =
        ((run (com_thread_worker run queue s).1 item).1,
          (com_thread_worker run queue s).2 ++
            [(run (com_thread_worker run queue s).1 item).2]) := by
  refine ⟨fun items => by simpa using com_thread_worker_record items [],
    fun σ β run queue item s => ?_⟩
  rw [com_thread_worker_append]
  simp [com_thread_worker]

/-- C1 is refuted by the code on the zero-byte-close input: when the
interop socket closes cleanly before delivering a full frame header,
every underlying read reports end-of-file without an error, so the
`while` loop in `read_direct` calls `fill_buf` forever (it keeps
returning an empty — or short — buffer with no error to propagate).
The frame-reader thread therefore never terminates, the termination
channel's sender is never dropped, and `wait()` blocks forever in
`recv()` instead of returning a default/unknown status.  The same holds
when the connection ends after a partial header (shown both for 4 bytes
already buffered and for a 4-byte chunk followed by end-of-file). -/
theorem c1_wait_blocks_on_clean_eof :
    process_messages ⟨[], []⟩ = .diverge ∧
      wsl2_wait ⟨[], []⟩ = .blocksForever ∧
      process_messages ⟨[1, 2, 3, 4], []⟩ = .diverge ∧
      process_messages ⟨[], [some [1, 2, 3, 4]]⟩ = .diverge := by
  have h1 : process_messages ⟨[], []⟩ = .diverge := by
    apply process_messages_of_diverge
    simp [read_direct]
  have h2 : process_messages ⟨[1, 2, 3, 4], []⟩ = .diverge := by
    apply process_messages_of_diverge
    simp [read_direct]
  have h3 : process_messages ⟨[], [some [1, 2, 3, 4]]⟩ = .diverge := by
    rw [process_messages_pull]
    exact h2
  exact ⟨h1, by simp [wsl2_wait, recv_exit_code, h1], h2, h3⟩

/-- C4: a two-frame stream — an unrecognized frame with tag `t` and
declared size `n` such that `n - 8` is positive and at most the
1024-byte scratch buffer, carrying `n - 8` payload bytes, followed
immediately by an exit-status frame of declared size 12 carrying exit
code 42 — makes the reader skip exactly the first frame's declared
payload, decode the exit-status payload, and `recv_exit_code()` return
`Some(42)`. -/
theorem c4_skip_then_exit_42 (t n : Nat) (payload : List Nat)
    (ht : t < 2 ^ 32) (hne : t ≠ LX_INIT_MESSAGE_EXIT_STATUS)
    (hn : n < 2 ^ 32) (hlen : payload.length = n - 8) (hpos : 8 < n)
    (hbound : n - 8 ≤ 1024) :
    recv_exit_code ⟨[], [some (frameBytes t n payload ++
        frameBytes LX_INIT_MESSAGE_EXIT_STATUS 12 (encodeU32 42))]⟩ =
      .value 42 := by
  unfold recv_exit_code
  rw [process_messages_pull,
    process_messages_skip t n payload _ [] ht hne hn hlen hpos hbound,
    show frameBytes LX_INIT_MESSAGE_EXIT_STATUS 12 (encodeU32 42) =
      frameBytes LX_INIT_MESSAGE_EXIT_STATUS 12 (encodeU32 42) ++ [] by
        simp,
    process_messages_exit 12 42 [] [] (by norm_num)]

/-- Witness for C4 at the spec's example: tag 0x99 (153), declared size
16, eight bytes of padding, then the exit frame with code 42. -/
theorem c4_skip_then_exit_42_witness :
    (153 < 2 ^ 32 ∧ 153 ≠ LX_INIT_MESSAGE_EXIT_STATUS ∧ 16 < 2 ^ 32 ∧
        ([0, 0, 0, 0, 0, 0, 0, 0] : List Nat).length = 16 - 8 ∧
        8 < 16 ∧ 16 - 8 ≤ 1024) ∧
      recv_exit_code ⟨[], [some (frameBytes 153 16
          [0, 0, 0, 0, 0, 0, 0, 0] ++
          frameBytes LX_INIT_MESSAGE_EXIT_STATUS 12 (encodeU32 42))]⟩ =
        .value 42 :=
  ⟨by refine ⟨by norm_num, by decide, by norm_num, by decide, by norm_num,
      by norm_num⟩,
    c4_skip_then_exit_42 153 16 [0, 0, 0, 0, 0, 0, 0, 0] (by norm_num)
      (by decide) (by norm_num) (by decide) (by norm_num) (by norm_num)⟩

/-- C5: for every raw status the direct-path wait ioctl returns,
`wait_for_wsl_process` decodes it to the raw value reinterpreted as a
`u32` (two's complement) shifted right by 8 bits — in particular the raw
status 0x2A00 decodes to exit code 42 — while an exit code delivered by
the interop frame reader is returned by `wait()` as-is, unshifted. -/
theorem c5_exit_code_decoding (raw : Int) (st fin : BufReader) (c : Nat)
    (h : process_messages st = .sent c fin) :
    wait_for_wsl_process (.ok raw) =
        .ok ((raw % (2 ^ 32 : Int)).toNat / 2 ^ 8) ∧
      wait_for_wsl_process (.ok 10752) = .ok 42 ∧
      wsl2_wait st = .returns (u32_to_exit_status c) := by
  refine ⟨rfl, by simp [wait_for_wsl_process], ?_⟩
  simp [wsl2_wait, recv_exit_code, h]

/-- Witness for C5: a one-frame exit stream carrying code 42, whose
`wait()` returns status 42 unshifted. -/
theorem c5_exit_code_decoding_witness :
    process_messages ⟨frameBytes LX_INIT_MESSAGE_EXIT_STATUS 12
        (encodeU32 42) ++ [], []⟩ = .sent 42 ⟨[], []⟩ ∧
      wsl2_wait ⟨frameBytes LX_INIT_MESSAGE_EXIT_STATUS 12
        (encodeU32 42) ++ [], []⟩ = .returns (u32_to_exit_status 42) :=
  have h := process_messages_exit 12 42 [] [] (by norm_num)
  ⟨h, (c5_exit_code_decoding 10752 _ _ 42 h).2.2⟩

theorem read_exact_error_swallowed (n : Nat) (r : List SockChunk)
    (hn : 0 < n) :
    read_exact n [] (none :: r) = ⟨[], r⟩ := by
  rw [read_exact, if_neg]
  simp only [List.length_nil]
  omega

/-- A read error during the skip of an unrecognized frame's declared
payload is swallowed: the skip-read's result is discarded (interop.rs
line 49, `let _ = reader.read_exact(...)`), so the reader continues
with the following reads as if the frame had been skipped. -/
theorem process_messages_skip_error (t sz : Nat) (r : List SockChunk)
    (ht : t < 2 ^ 32) (hne : t ≠ LX_INIT_MESSAGE_EXIT_STATUS)
    (hsz : sz < 2 ^ 32) (hpos : 8 < sz) (hbound : sz - 8 ≤ 1024) :
    process_messages ⟨frameBytes t sz [], none :: r⟩ =
      process_messages ⟨[], r⟩ := by
  have hread : read_direct 8 (frameBytes t sz []) (none :: r) =
      .ok (encodeU32 t ++ encodeU32 sz) ⟨[], none :: r⟩ := by
    simpa using read_direct_header t sz [] [] (none :: r)
  rw [process_messages_of_ok _ _ _ hread]
  rw [decode_header_type t sz ht, decode_header_size t sz hsz]
  rw [if_neg hne]
  have hrem : (sz + USIZE_MOD - 8) % USIZE_MOD = sz - 8 := by
    simp only [USIZE_MOD]
    omega
  rw [hrem, if_pos (by omega)]
  rw [read_exact_error_swallowed _ _ (by omega)]

/-- C8 counterexample: a read error during the skip of an unrecognized
frame's payload does not make the reader thread exit without sending.
On the stream "header of an unrecognized frame (tag 153, declared size
16) with its payload missing, then a read error, then an exit-status
frame with code 42", the error is swallowed and the exit frame is still
decoded and sent, so `recv_exit_code()` returns `Some(42)` rather than
`None` — refuting the original claim's "on any read error". -/
theorem c8_skip_error_sends_exit_code :
    recv_exit_code ⟨frameBytes 153 16 [],
        [none, some (frameBytes LX_INIT_MESSAGE_EXIT_STATUS 12
          (encodeU32 42))]⟩ = .value 42 ∧
      recv_exit_code ⟨frameBytes 153 16 [],
        [none, some (frameBytes LX_INIT_MESSAGE_EXIT_STATUS 12
          (encodeU32 42))]⟩ ≠ .closed := by
  have h : process_messages ⟨frameBytes 153 16 [],
      [none, some (frameBytes LX_INIT_MESSAGE_EXIT_STATUS 12
        (encodeU32 42))]⟩ = .sent 42 ⟨[], []⟩ := by
    rw [process_messages_skip_error 153 16 _ (by norm_num) (by decide)
      (by norm_num) (by norm_num) (by norm_num)]
    rw [process_messages_pull]
    simpa using process_messages_exit 12 42 [] [] (by norm_num)
  exact ⟨by simp [recv_exit_code, h], by simp [recv_exit_code, h]⟩

/-- C8 (amended): a read error that surfaces at a frame-header read —
here after any number of fully-delivered well-formed frames — makes the
reader thread exit without sending on the termination channel, every
subsequent `recv_exit_code()` call observes no result (`None`, not an
error or a panic), and `wait()` returns the default status; however, a
read error during the skip of an unrecognized frame's declared payload
is swallowed (the skip-read's result is discarded) and the reader
continues with the following reads as if the frame had been skipped. -/
theorem c8_read_error_amended (pre : List WireFrame)
    (hpre : ∀ f ∈ pre, SkippableFrame f) (t sz : Nat) (ht : t < 2 ^ 32)
    (hne : t ≠ LX_INIT_MESSAGE_EXIT_STATUS) (hsz : sz < 2 ^ 32)
    (hpos : 8 < sz) (hbound : sz - 8 ≤ 1024) (r : List SockChunk) :
    (process_messages ⟨(pre.map encodeFrame).flatten, [none]⟩ =
        .errExit ∧
      recv_exit_code ⟨(pre.map encodeFrame).flatten, [none]⟩ = .closed ∧
      wsl2_wait ⟨(pre.map encodeFrame).flatten, [none]⟩ =
        .returns .defaultStatus) ∧
    process_messages ⟨frameBytes t sz [], none :: r⟩ =
      process_messages ⟨[], r⟩ := by
  refine ⟨?_, process_messages_skip_error t sz r ht hne hsz hpos hbound⟩
  have h0 : process_messages ⟨[], [none]⟩ = .errExit := by
    apply process_messages_of_err
    simp [read_direct]
  have h : process_messages ⟨(pre.map encodeFrame).flatten, [none]⟩ =
      .errExit := by
    have hs := process_messages_skip_all pre hpre [] [none]
    simp only [List.append_nil] at hs
    exact hs.trans h0
  exact ⟨h, by simp [recv_exit_code, h],
    by simp [wsl2_wait, recv_exit_code, h]⟩

/-- Witness for the amended C8: one skippable frame then a header-read
error (degrades to no result), and a swallowed skip error for the
unrecognized frame with tag 153 and declared size 16. -/
theorem c8_read_error_amended_witness :
    ((∀ f ∈ [WireFrame.mk 153 [1, 2, 3]], SkippableFrame f) ∧
        153 < 2 ^ 32 ∧ 153 ≠ LX_INIT_MESSAGE_EXIT_STATUS ∧
        16 < 2 ^ 32 ∧ 8 < 16 ∧ 16 - 8 ≤ 1024) ∧
      recv_exit_code ⟨([WireFrame.mk 153 [1, 2, 3]].map
          encodeFrame).flatten, [none]⟩ = .closed ∧
      process_messages ⟨frameBytes 153 16 [], [none]⟩ =
        process_messages ⟨[], []⟩ :=
  have happ := c8_read_error_amended [WireFrame.mk 153 [1, 2, 3]]
    (by decide) 153 16 (by norm_num) (by decide) (by norm_num)
    (by norm_num) (by norm_num) []
  ⟨⟨by decide, by norm_num, by decide, by norm_num, by norm_num,
    by norm_num⟩, happ.1.2.1, happ.2⟩

/-- C9: for every stream made of well-formed unrecognized frames
followed by a first exit-status frame and then arbitrary further bytes,
the reader skips the leading frames, decodes the fixed-size exit-status
payload, performs exactly one send of that exit code on the termination
channel and returns (terminating the thread); nothing past the 4-byte
exit payload is consumed — the trailing bytes are still intact in the
final reader state. -/
theorem c9_first_exit_frame_stops_reader (pre : List WireFrame)
    (hpre : ∀ f ∈ pre, SkippableFrame f) (esz c : Nat) (hc : c < 2 ^ 32)
    (tail : List Nat) :
    process_messages ⟨(pre.map encodeFrame).flatten ++
        (frameBytes LX_INIT_MESSAGE_EXIT_STATUS esz (encodeU32 c) ++
          tail), []⟩ =
      .sent c ⟨tail, []⟩ := by
  rw [process_messages_skip_all pre hpre _ []]
  exact process_messages_exit esz c tail [] hc

/-- Witness for C9: one skipped frame, exit code 7, three trailing
bytes left unconsumed. -/
theorem c9_first_exit_frame_stops_reader_witness :
    ((∀ f ∈ [WireFrame.mk 5 [9]], SkippableFrame f) ∧ 42 < 2 ^ 32) ∧
      process_messages ⟨([WireFrame.mk 5 [9]].map encodeFrame).flatten ++
          (frameBytes LX_INIT_MESSAGE_EXIT_STATUS 12 (encodeU32 42) ++
            [1, 2, 3]), []⟩ =
        .sent 42 ⟨[1, 2, 3], []⟩ :=
  ⟨⟨by decide, by norm_num⟩,
    c9_first_exit_frame_stops_reader [WireFrame.mk 5 [9]] (by decide) 12
      42 (by norm_num) [1, 2, 3]⟩

theorem validate_file_handle_mismatch (getFileType : Int → Nat)
    (lastError name : String) (handle : Int) (expected : Nat)
    (hm : getFileType handle ≠ expected) :
    ∃ e, validate_file_handle getFileType lastError name handle expected =
      .error e := by
  unfold validate_file_handle
  by_cases hu : getFileType handle = FILE_TYPE_UNKNOWN
  · refine ⟨⟨WSL_E_INVALID_USAGE, name ++ " (" ++ fmt_hex handle ++
      ") is not a valid file handle: " ++ lastError⟩, ?_⟩
    simp [hu]
  · refine ⟨⟨WSL_E_INVALID_USAGE, name ++ " (" ++ fmt_hex handle ++
      ") must be a " ++ type_to_string expected ++ " (got a " ++
      type_to_string (getFileType handle) ++ ")"⟩, ?_⟩
    simp [hu, hm]

/-- C7: handle-type validation, performed locally before the service
call is attempted, rejects every handle whose OS-reported type differs
from the expected type; when the service call's validation fails the
service is never entered; and a character-device handle passed where a
pipe is required is rejected with exactly the message naming the
parameter, the observed handle value, "pipe" as the expected type and
"character device" as the observed type. -/
theorem c7_handle_type_validation (getFileType : Int → Nat)
    (lastError name : String) (handle : Int) (expected : Nat)
    (hm : getFileType handle ≠ expected) :
    (∃ e, validate_file_handle getFileType lastError name handle expected
        = .error e) ∧
    (getFileType handle = FILE_TYPE_CHAR → expected = FILE_TYPE_PIPE →
      validate_file_handle getFileType lastError name handle expected =
        .error ⟨WSL_E_INVALID_USAGE, name ++ " (" ++ fmt_hex handle ++
          ") must be a pipe (got a character device)"⟩) ∧
    (expected = FILE_TYPE_PIPE →
      ∀ (service : Int → Int → Except WslErrorModel Unit)
        (file_handle : Int),
        (export_distribution getFileType lastError service file_handle
            handle).2 = false) := by
  refine ⟨validate_file_handle_mismatch getFileType lastError name handle
    expected hm, fun hc hp => ?_, fun hp service file_handle => ?_⟩
  · subst hp
    unfold validate_file_handle
    rw [hc]
    simp [type_to_string, FILE_TYPE_CHAR, FILE_TYPE_PIPE, FILE_TYPE_DISK,
      FILE_TYPE_REMOTE, FILE_TYPE_UNKNOWN, String.append_assoc]
  · subst hp
    obtain ⟨e, he⟩ := validate_file_handle_mismatch getFileType lastError
      "stderr_handle" handle FILE_TYPE_PIPE hm
    unfold export_distribution
    rw [he]

/-- Witness for C7: in an environment reporting handle 7 as a character
device, validating it as the pipe parameter of an export rejects it with
the exact expected message. -/
theorem c7_handle_type_validation_witness :
    ((fun h : Int => if h = 7 then FILE_TYPE_CHAR else FILE_TYPE_DISK) 7 ≠
        FILE_TYPE_PIPE) ∧
      validate_file_handle
          (fun h => if h = 7 then FILE_TYPE_CHAR else FILE_TYPE_DISK)
          "os error 6" "stderr_handle" 7 FILE_TYPE_PIPE =
        .error ⟨WSL_E_INVALID_USAGE,
          "stderr_handle (7) must be a pipe (got a character device)"⟩ := by
  refine ⟨by decide, ?_⟩
  have h := (c7_handle_type_validation
    (fun h => if h = 7 then FILE_TYPE_CHAR else FILE_TYPE_DISK)
    "os error 6" "stderr_handle" 7 FILE_TYPE_PIPE (by decide)).2.1
    (by decide) rfl
  rw [h]
  have hs : "stderr_handle" ++ " (" ++ fmt_hex 7 ++
      ") must be a pipe (got a character device)" =
      "stderr_handle (7) must be a pipe (got a character device)" := by
    decide
  rw [hs]
